import Mathlib

/-!
# Blog routes (`nodejs-blog/server/routes/main.js`, `admin.js`)

A shallow embedding of the route handlers of the blog: the public routes of
`main.js` (home listing with pagination, single post, search) and the admin
routes of `admin.js` (the `authMiddleware` gate, login, registration and the
gated post operations).

Handlers are state-passing functions over a `World` (the two collections, the
mutable part of the request and a trace of the calls made on `res`, on the
database and on the console), with JavaScript exceptions as an explicit error
channel.
-/

namespace Blog

/-! ## Numbers and strings of the home listing -/

/-- White space skipped by `parseInt` before the number (the `StrWhiteSpaceChar`
production: tab, VT, FF, space, NBSP, ZWNBSP, the space separators and the line
terminators). -/
def isStrWhiteSpaceChar (c : Char) : Bool :=
  let n := c.toNat
  n == 0x09 || n == 0x0A || n == 0x0B || n == 0x0C || n == 0x0D || n == 0x20 ||
  n == 0xA0 || n == 0x1680 || (0x2000 ≤ n && n ≤ 0x200A) || n == 0x2028 ||
  n == 0x2029 || n == 0x202F || n == 0x205F || n == 0x3000 || n == 0xFEFF

/-- Value of a character as a digit (`0-9`, `a-z`, `A-Z`), before the radix test. -/
def digitValue (c : Char) : Option Nat :=
  let n := c.toNat
  if 48 ≤ n ∧ n ≤ 57 then some (n - 48)
  else if 97 ≤ n ∧ n ≤ 122 then some (n - 87)
  else if 65 ≤ n ∧ n ≤ 90 then some (n - 55)
  else none

/-- Value of a character as a digit of radix `R`, `none` when it is not one. -/
def radixDigit (R : Nat) (c : Char) : Option Nat :=
  match digitValue c with
  | some d => if d < R then some d else none
  | none => none

/-- JavaScript `parseInt(string)` with no radix argument, on the characters of the
string: leading white space is dropped, one sign is read, a `0x`/`0X` prefix
selects radix 16 (radix 10 otherwise), and the longest run of digits is the
value. `none` is `NaN`. The value is the mathematical integer (the rounding of
very long digit runs to a double is not modelled). -/
def parseIntChars (cs : List Char) : Option Int :=
  let S := cs.dropWhile isStrWhiteSpaceChar
  let signed : Int × List Char :=
    match S with
    | '-' :: r => (-1, r)
    | '+' :: r => (1, r)
    | _ => (1, S)
  let prefixed : Nat × List Char :=
    match signed.2 with
    | '0' :: 'x' :: r => (16, r)
    | '0' :: 'X' :: r => (16, r)
    | r => (10, r)
  let R := prefixed.1
  let Z := prefixed.2.takeWhile (fun c => (radixDigit R c).isSome)
  if Z.isEmpty then none
  else some (signed.1 * ((Z.foldl (fun acc c => acc * R + (radixDigit R c).getD 0) 0 : Nat) : Int))

/-- The call `parseInt(v)` on a query value: an absent value is `undefined`, which
`parseInt` first turns into the string `"undefined"`. -/
def parseInt (v : Option String) : Option Int :=
  parseIntChars (v.getD "undefined").toList

/-- The expression `x || 1` on a number: `NaN` and `0` are falsy. -/
def orOne (x : Option Int) : Int :=
  match x with
  | none => 1
  | some n => if n = 0 then 1 else n

/-- Source: `let perPage = 6;`. -/
def perPage : Int := 6

/-- Source: `let page = parseInt(req.query.page) || 1;`. -/
def page (query : Option String) : Int := orOne (parseInt query)

/-- Source: the argument of `.skip(...)`, `perPage * page - perPage`. -/
def skipOffset (page : Int) : Int := perPage * page - perPage

/-- Source: `const nextPage = page + 1;`. -/
def nextPage (page : Int) : Int := page + 1

/-- Source: `Math.ceil(count / perPage)`, the division taken in the rationals. -/
def ceilDiv (count per : Int) : Int := Int.ceil ((count : ℚ) / (per : ℚ))

/-- Source: `const hasNextPage = nextPage <= Math.ceil(count / perPage);`. -/
def hasNextPage (page count : Int) : Bool := decide (nextPage page ≤ ceilDiv count perPage)

/-- Source: `nextPage: hasNextPage ? nextPage : null`, the value handed to the view. -/
def nextPageView (page count : Int) : Option Int :=
  if hasNextPage page count then some (nextPage page) else none

/-! ## Data model -/

/-- Document identifiers, as they appear in paths (`req.params.id`) and in token payloads. -/
abbrev Id := String

/-- Modelled from the spec: the `Post` schema of `models/Post` (not among the sources),
`{ id, title, body, createdAt, updatedAt }`. -/
structure Post where
  id : Id
  title : String
  body : String
  createdAt : Nat
  updatedAt : Nat
  deriving DecidableEq, Repr

/-- Modelled from the spec: the `User` schema of `models/User` (not among the sources),
`{ id, username (unique), passwordHash }`; the field holding the hash is `password`
in the routes. -/
structure User where
  id : Id
  username : String
  password : String
  deriving DecidableEq, Repr

/-- JavaScript errors that reach a `catch` block of the routes. -/
inductive Err where
  /-- A property read on `null`, as in `data.title` with `data === null`. -/
  | typeError
  /-- A `MongoServerError` carrying a numeric `code`. -/
  | mongo (code : Nat)
  /-- Node `ERR_HTTP_HEADERS_SENT`: a header is set after the response went out. -/
  | headersSent
  /-- The server rejects an aggregation stage (a negative `$skip`, a `$limit` that is
  not positive). -/
  | invalidStage
  /-- Any other error (driver, `bcrypt`, `jsonwebtoken`). -/
  | other (msg : String)
  deriving DecidableEq, Repr

/-- Source: `error.code` as compared with `11000`. -/
def Err.code : Err → Option Nat
  | .mongo c => some c
  | _ => none

/-- The object returned by `jwt.verify`; `userId` is `undefined` when the payload has none. -/
structure Payload where
  userId : Option Id
  deriving DecidableEq, Repr

/-- The parts of an Express request the routes read. Body fields are the strings of
the submitted form. -/
structure Req where
  /-- The cookie `req.cookies.token`, `none` when `undefined`. -/
  token : Option String := none
  /-- The query value `req.query.page`, `none` when `undefined`. -/
  page : Option String := none
  /-- The path value `req.params.id`. -/
  id : Id := ""
  username : String := ""
  password : String := ""
  title : String := ""
  body : String := ""
  searchTerm : String := ""
  deriving DecidableEq, Repr

/-- The library calls of `admin.js`, with the secret and the cost factor fixed:
`jwt.verify(token, jwtSecret)`, `jwt.sign({ userId }, jwtSecret)`,
`bcrypt.hash(password, 10)`, `bcrypt.compare(password, hash)`; an `error` result is a
throw. `objectId n` is the identifier the driver gives to the `n`-th created document. -/
structure Env where
  verify : String → Except Err Payload
  sign : Id → Except Err String
  hash : String → Except Err String
  compare : String → String → Except Err Bool
  objectId : Nat → Id

/-- A JavaScript regular expression `new RegExp(source, "i")` or `new RegExp(source)`. -/
structure RegExp where
  source : String
  ignoreCase : Bool
  deriving DecidableEq, Repr

/-- The two text fields of a post a filter can name. -/
inductive Field where
  | title
  | body
  deriving DecidableEq, Repr

/-- Database calls made by the routes, with their arguments. -/
inductive DbCall where
  /-- `Post.find()`. -/
  | postFind
  /-- `Post.find({ $or: [{ f: { $regex: re } }, ...] })`. -/
  | postFindOr (clauses : List (Field × RegExp))
  /-- `Post.aggregate([{ $sort: { createdAt: -1 } }]).skip(skip).limit(limit).exec()`. -/
  | postAggregate (skip limit : Int)
  /-- `Post.countDocuments()`. -/
  | postCountDocuments
  /-- `Post.findById({ _id: id })` and `Post.findOne({ _id: id })`. -/
  | postFindById (id : Id)
  /-- `Post.create(new Post({ title, body }))`. -/
  | postCreate (title body : String)
  /-- `Post.findByIdAndUpdate(id, { title, body, updatedAt })`. -/
  | postFindByIdAndUpdate (id : Id) (title body : String) (updatedAt : Nat)
  /-- `Post.deleteOne({ _id: id })`. -/
  | postDeleteOne (id : Id)
  /-- `User.findOne({ username })`. -/
  | userFindOne (username : String)
  /-- `User.create({ username, password })`. -/
  | userCreate (username password : String)
  deriving DecidableEq, Repr

/-- Values handed to a view. -/
inductive Val where
  | null
  | num (n : Int)
  | str (s : String)
  | locals (title description : String)
  | post (p : Post)
  | posts (ps : List Post)
  deriving DecidableEq, Repr

/-- The body of a JSON response: `{ message }` or `{ message, user }`. -/
structure JsonBody where
  message : String
  user : Option User := none
  deriving DecidableEq, Repr

/-- What a handler does that is visible from outside: calls on `res`, on `next`, on
the console and on the database, in the order they are made. -/
inductive Event where
  /-- The call `res.status(status).json(body)`. -/
  | json (status : Nat) (body : JsonBody)
  /-- The call `res.render(view, options)`. -/
  | render (view : String) (options : List (String × Val))
  /-- The call `res.redirect(url)`. -/
  | redirect (url : String)
  /-- The call `res.cookie(name, value, { httpOnly })`. -/
  | cookie (name value : String) (httpOnly : Bool)
  /-- The call `res.clearCookie(name)`. -/
  | clearCookie (name : String)
  /-- The call `next()`. -/
  | next
  /-- The call `console.error(error)`. -/
  | consoleError (e : Err)
  /-- An error that left the handler `next()` started, with nobody to catch it. -/
  | unhandled (e : Err)
  /-- A call on a model. -/
  | db (c : DbCall)
  deriving DecidableEq, Repr

/-- The calls that write a response: `json`, `render`, `redirect`. -/
def Event.isResponse : Event → Bool
  | .json _ _ => true
  | .render _ _ => true
  | .redirect _ => true
  | _ => false

/-- A call on a model. -/
def Event.isDb : Event → Bool
  | .db _ => true
  | _ => false

/-- The state a request runs in: the two collections, the number of documents created
so far, the clock read by `Date.now()`, the unexpected failures the next database
calls will meet (`some e` makes the call throw `e`, `none` or an exhausted list lets it
through), the property `req.userId`, and the trace of calls made so far. -/
structure World where
  posts : List Post := []
  users : List User := []
  created : Nat := 0
  now : Nat := 0
  faults : List (Option Err) := []
  userId : Option Id := none
  trace : List Event := []
  deriving DecidableEq, Repr

/-! ## Handlers as state-passing functions with exceptions -/

/-- A computation that may throw; effects made before the throw stay. -/
def M (α : Type) : Type := World → Except Err α × World

/-- Sequencing: a throw skips the rest. -/
def M.bind {α β : Type} (m : M α) (f : α → M β) : M β := fun w =>
  match m w with
  | (.ok a, w1) => f a w1
  | (.error e, w1) => (.error e, w1)

/-- A value, no effect. -/
def M.pure {α : Type} (a : α) : M α := fun w => (.ok a, w)

/-- JavaScript `throw`. -/
def M.throw {α : Type} (e : Err) : M α := fun w => (.error e, w)

/-- JavaScript `try { body } catch (error) { handler(error) }`. -/
def M.tryCatch {α : Type} (body : M α) (handler : Err → M α) : M α := fun w =>
  match body w with
  | (.ok a, w1) => (.ok a, w1)
  | (.error e, w1) => handler e w1

instance : Monad M where
  pure := M.pure
  bind := M.bind

instance : MonadExcept Err M where
  throw := M.throw
  tryCatch := M.tryCatch

/-- The result of a library call of `Env`: a value or a throw. -/
def liftExcept {α : Type} (r : Except Err α) : M α := fun w => (r, w)

/-- Append a call to the trace. -/
def emit (e : Event) : M Unit := fun w => (.ok (), { w with trace := w.trace ++ [e] })

/-- Express `res.headersSent`: a response call was already made. -/
def headersSent (w : World) : Bool := w.trace.any Event.isResponse

/-- A call on `res` that sets headers: it is made (and recorded); when a response
already went out it throws `ERR_HTTP_HEADERS_SENT` and nothing more reaches the client. -/
def resCall (e : Event) : M Unit := fun w =>
  if headersSent w then (.error .headersSent, { w with trace := w.trace ++ [e] })
  else (.ok (), { w with trace := w.trace ++ [e] })

/-- Source: `console.error(error)`. -/
def consoleError (e : Err) : M Unit := emit (.consoleError e)

/-- Source: `Date.now()`. -/
def dateNow : M Nat := fun w => (.ok w.now, w)

/-- Source: `req.userId = v`. -/
def setUserId (v : Option Id) : M Unit := fun w => (.ok (), { w with userId := v })

/-- A call on a model: it is recorded, then it either meets the next scripted failure
or runs on the collections. -/
def dbCall {α : Type} (c : DbCall) (op : M α) : M α := fun w =>
  let w1 : World := { w with trace := w.trace ++ [Event.db c] }
  match w1.faults with
  | some e :: rest => (.error e, { w1 with faults := rest })
  | none :: rest => op { w1 with faults := rest }
  | [] => op w1

/-- The call `next()` of a middleware: the route handler behind it is an `async`
function, so an error leaving it is a rejected promise and is not thrown into the
middleware. -/
def callNext (next : M Unit) : M Unit := fun w =>
  match next { w with trace := w.trace ++ [.next] } with
  | (.ok _, w1) => (.ok (), w1)
  | (.error e, w1) => (.ok (), { w1 with trace := w1.trace ++ [.unhandled e] })

/-- The responses that reach the client: the first response call, the later ones throw. -/
def delivered (t : List Event) : List Event := (t.filter Event.isResponse).take 1

/-- The response calls a handler made, delivered or not. -/
def responseCalls (t : List Event) : List Event := t.filter Event.isResponse

/-! ## Search term and pattern -/

/-- The class `[a-zA-Z0-9]`. -/
def isAlnum (c : Char) : Bool :=
  let n := c.toNat
  (97 ≤ n && n ≤ 122) || (65 ≤ n && n ≤ 90) || (48 ≤ n && n ≤ 57)

/-- Source: `searchTerm.replace(/[^a-zA-Z0-9]/g, "")`: every character outside the class
is replaced by nothing. -/
def searchNoSpecialChar (searchTerm : String) : String :=
  String.mk (searchTerm.toList.filter isAlnum)

/-- The syntax characters of a JavaScript pattern, `^ $ \ . * + ? ( ) [ ] { } |`,
by code point. -/
def isSyntaxCharacter (c : Char) : Bool :=
  [94, 36, 92, 46, 42, 43, 63, 40, 41, 91, 93, 123, 125, 124].contains c.toNat

/-- A pattern with no syntax character: it matches its own text and nothing else. -/
def RegExp.isLiteral (re : RegExp) : Bool :=
  re.source.toList.all (fun c => !isSyntaxCharacter c)

/-- The text `p` occurs in `s` as a run of consecutive characters. -/
def hasSubstr : List Char → List Char → Bool
  | [], p => p.isEmpty
  | c :: cs, p => p.isPrefixOf (c :: cs) || hasSubstr cs p

/-- Case folding of the flag `i` on the letters `A-Z` (other scripts are left to the
database engine). -/
def foldCase (cs : List Char) : List Char := cs.map Char.toLower

/-- An unanchored match of a literal pattern against a text, as `$regex` does it;
`none` for a pattern outside the literal fragment, which is not modelled. -/
def RegExp.test (re : RegExp) (text : String) : Option Bool :=
  if re.isLiteral then
    if re.ignoreCase then some (hasSubstr (foldCase text.toList) (foldCase re.source.toList))
    else some (hasSubstr text.toList re.source.toList)
  else none

/-- The value of a field of a post. -/
def Field.get : Field → Post → String
  | .title, p => p.title
  | .body, p => p.body

/-- A post satisfies `$or` when one of the clauses matches. -/
def matchesOr (clauses : List (Field × RegExp)) (p : Post) : Bool :=
  clauses.any (fun c => c.2.test (c.1.get p) == some true)

/-! ## The collections -/

/-- Source: `Post.find()`. -/
def Post.find : M (List Post) :=
  dbCall .postFind (fun w => (.ok w.posts, w))

/-- Source: `Post.find({ $or: [...] })`, the posts satisfying the filter in collection
order. -/
def Post.findOr (clauses : List (Field × RegExp)) : M (List Post) :=
  dbCall (.postFindOr clauses) (fun w =>
    if clauses.all (fun c => c.2.isLiteral) then (.ok (w.posts.filter (matchesOr clauses)), w)
    else (.error (.other "pattern outside the literal fragment"), w))

/-- Source: `Post.aggregate([{ $sort: { createdAt: -1 } }]).skip(skip).limit(limit).exec()`:
newest first, then `skip` documents dropped and at most `limit` kept. -/
def Post.aggregateSortSkipLimit (skip limit : Int) : M (List Post) :=
  dbCall (.postAggregate skip limit) (fun w =>
    if skip < 0 ∨ limit ≤ 0 then (.error .invalidStage, w)
    else
      (.ok (((w.posts.insertionSort (fun a b => b.createdAt ≤ a.createdAt)).drop
        skip.toNat).take limit.toNat), w))

/-- Source: `Post.countDocuments()`. -/
def Post.countDocuments : M Int :=
  dbCall .postCountDocuments (fun w => (.ok (w.posts.length : Int), w))

/-- Source: `Post.findById({ _id: id })` and `Post.findOne({ _id: id })`; `none` is `null`. -/
def Post.findById (id : Id) : M (Option Post) :=
  dbCall (.postFindById id) (fun w => (.ok (w.posts.find? (fun p => p.id == id)), w))

/-- Source: `Post.create(new Post({ title, body }))`. Modelled from the spec: the
timestamps of the schema (`models/Post`, not among the sources) are set to the current
time. -/
def Post.create (env : Env) (title body : String) : M Unit :=
  dbCall (.postCreate title body) (fun w =>
    (.ok (), { w with
      posts := w.posts ++ [{ id := env.objectId w.created, title := title, body := body,
                             createdAt := w.now, updatedAt := w.now }],
      created := w.created + 1 }))

/-- Rewrite the first post with the given id. -/
def updateFirst (id : Id) (f : Post → Post) : List Post → List Post
  | [] => []
  | p :: ps => if p.id = id then f p :: ps else p :: updateFirst id f ps

/-- Drop the first post with the given id. -/
def eraseFirst (id : Id) : List Post → List Post
  | [] => []
  | p :: ps => if p.id = id then ps else p :: eraseFirst id ps

/-- Source: `Post.findByIdAndUpdate(id, { title, body, updatedAt })`. -/
def Post.findByIdAndUpdate (id : Id) (title body : String) (updatedAt : Nat) : M Unit :=
  dbCall (.postFindByIdAndUpdate id title body updatedAt) (fun w =>
    (.ok (), { w with
      posts := updateFirst id
        (fun p => { p with title := title, body := body, updatedAt := updatedAt }) w.posts }))

/-- Source: `Post.deleteOne({ _id: id })`. -/
def Post.deleteOne (id : Id) : M Unit :=
  dbCall (.postDeleteOne id) (fun w => (.ok (), { w with posts := eraseFirst id w.posts }))

/-- Source: `User.findOne({ username })`; `none` is `null`. -/
def User.findOne (username : String) : M (Option User) :=
  dbCall (.userFindOne username) (fun w =>
    (.ok (w.users.find? (fun u => u.username == username)), w))

/-- Source: `User.create({ username, password })`. Modelled from the spec: the unique
index on `username` of the schema (`models/User`, not among the sources): a second
document with the same username is refused with the duplicate-key code 11000. -/
def User.create (env : Env) (username password : String) : M User :=
  dbCall (.userCreate username password) (fun w =>
    if w.users.any (fun u => u.username == username) then (.error (.mongo 11000), w)
    else
      let user : User := { id := env.objectId w.created, username := username,
                           password := password }
      (.ok user, { w with users := w.users ++ [user], created := w.created + 1 }))

/-! ## `main.js` -/

/-- The `description` of every `locals` object. -/
def description : String := "A simple blog created with NodeJs, Express and MongoDB."

/-- Source: `router.get("", ...)`, the home listing. -/
def getHome (req : Req) : M Unit := do
  try
    let locals := Val.locals "NodeJs Blog" description
    let page := page req.page
    let data ← Post.aggregateSortSkipLimit (skipOffset page) perPage
    let count ← Post.countDocuments
    resCall (.render "index"
      [("locals", locals), ("data", .posts data), ("current", .num page),
       ("nextPage", match nextPageView page count with
                    | some n => .num n
                    | none => .null),
       ("currentRoute", .str "/")])
  catch error =>
    consoleError error

/-- Source: `router.get("/post/:id", ...)`; reading `data.title` on `null` throws. -/
def getPost (req : Req) : M Unit := do
  try
    let slug := req.id
    let data ← Post.findById slug
    match data with
    | none => throw Err.typeError
    | some data =>
      let locals := Val.locals data.title description
      resCall (.render "post"
        [("locals", locals), ("data", .post data), ("currentRoute", .str ("/post/" ++ slug))])
  catch error =>
    consoleError error

/-- Source: `router.post("/search", ...)`. -/
def postSearch (req : Req) : M Unit := do
  try
    let locals := Val.locals "Search" description
    let searchTerm := req.searchTerm
    let searchNoSpecialChar := searchNoSpecialChar searchTerm
    let data ← Post.findOr
      [(.title, { source := searchNoSpecialChar, ignoreCase := true }),
       (.body, { source := searchNoSpecialChar, ignoreCase := true })]
    resCall (.render "search"
      [("locals", locals), ("data", .posts data), ("currentRoute", .str "/search")])
  catch error =>
    consoleError error

/-- Source: `router.get("/about", ...)`. -/
def getAbout : M Unit :=
  resCall (.render "about" [("currentRoute", .str "/about")])

/-- Source: `router.get("/contact", ...)`. -/
def getContact : M Unit :=
  resCall (.render "contact" [("currentRoute", .str "/contact")])

/-! ## `admin.js` -/

/-- Source: `const adminLayout = "../views/layouts/admin";`. -/
def adminLayout : String := "../views/layouts/admin"

/-- The body `{ message: "Unauthorized." }`. -/
def unauthorized : JsonBody := { message := "Unauthorized." }

/-- The body `{ message: "Invalid credentials." }`. -/
def invalidCredentials : JsonBody := { message := "Invalid credentials." }

/-- JavaScript truthiness of a cookie value: `undefined` and the empty string are falsy. -/
def truthy (token : Option String) : Bool :=
  match token with
  | none => false
  | some t => t != ""

/-- Source: `authMiddleware`. -/
def authMiddleware (env : Env) (req : Req) (next : M Unit) : M Unit := do
  let token := req.token
  if !truthy token then
    resCall (.json 401 unauthorized)
  else
    try
      let decoded ← liftExcept (env.verify (token.getD ""))
      setUserId decoded.userId
      callNext next
    catch _ =>
      resCall (.json 401 unauthorized)

/-- Source: `router.get("/admin", ...)`, the login page. -/
def getAdmin : M Unit := do
  try
    let locals := Val.locals "Admin" description
    resCall (.render "admin/index" [("locals", locals), ("layout", .str adminLayout)])
  catch error =>
    consoleError error

/-- Source: the handler of `router.get("/dashboard", authMiddleware, ...)`. -/
def getDashboard : M Unit := do
  try
    let locals := Val.locals "Admin dashboard" description
    let data ← Post.find
    resCall (.render "admin/dashboard"
      [("locals", locals), ("data", .posts data), ("layout", .str adminLayout)])
  catch error =>
    consoleError error

/-- Source: the handler of `router.get("/add-post", authMiddleware, ...)`. -/
def getAddPost : M Unit := do
  try
    let locals := Val.locals "Admin post" description
    resCall (.render "admin/add-post" [("locals", locals), ("layout", .str adminLayout)])
  catch error =>
    consoleError error

/-- Source: the handler of `router.post("/add-post", authMiddleware, ...)`. -/
def postAddPost (env : Env) (req : Req) : M Unit := do
  try
    let title := req.title
    let body := req.body
    Post.create env title body
    resCall (.redirect "/dashboard")
  catch error =>
    consoleError error

/-- Source: the handler of `router.get("/edit-post/:id", authMiddleware, ...)`; reading
`data.title` on `null` throws. -/
def getEditPost (req : Req) : M Unit := do
  try
    let data ← Post.findById req.id
    match data with
    | none => throw Err.typeError
    | some data =>
      let locals := Val.locals ("Edit post: " ++ data.title) description
      resCall (.render "admin/edit-post"
        [("locals", locals), ("data", .post data), ("layout", .str adminLayout)])
  catch error =>
    consoleError error

/-- Source: the handler of `router.put("/edit-post/:id", authMiddleware, ...)`. -/
def putEditPost (req : Req) : M Unit := do
  try
    let id := req.id
    let title := req.title
    let body := req.body
    let now ← dateNow
    Post.findByIdAndUpdate id title body now
    resCall (.redirect ("/edit-post/" ++ id))
  catch error =>
    consoleError error

/-- Source: `router.post("/admin", ...)`, the login. -/
def postAdmin (env : Env) (req : Req) : M Unit := do
  try
    let username := req.username
    let password := req.password
    let user ← User.findOne username
    match user with
    | none => resCall (.json 401 invalidCredentials)
    | some user =>
      let isPasswordValid ← liftExcept (env.compare password user.password)
      if !isPasswordValid then
        resCall (.json 401 invalidCredentials)
      else
        let token ← liftExcept (env.sign user.id)
        resCall (.cookie "token" token true)
        resCall (.redirect "/dashboard")
  catch error =>
    consoleError error

/-- Source: `router.post("/register", ...)`. The inner `catch` has no `return` after the
409, so the 500 call follows it. -/
def postRegister (env : Env) (req : Req) : M Unit := do
  try
    let username := req.username
    let password := req.password
    let hashedPassword ← liftExcept (env.hash password)
    (do
      try
        let user ← User.create env username hashedPassword
        resCall (.json 201 { message := "User created.", user := some user })
      catch error =>
        if error.code = some 11000 then
          resCall (.json 409 { message := "User already in use." })
        resCall (.json 500 { message := "Internal Server error." }))
  catch error =>
    consoleError error

/-- Source: the handler of `router.delete("/delete-post/:id", authMiddleware, ...)`. -/
def deletePost (req : Req) : M Unit := do
  try
    Post.deleteOne req.id
    resCall (.redirect "/dashboard")
  catch error =>
    consoleError error

/-- Source: `router.get("/logout", ...)`. -/
def getLogout : M Unit := do
  resCall (.clearCookie "token")
  resCall (.redirect "/")

/-! ## The routers -/

/-- The routes of the two routers, by method and path. -/
inductive Route where
  | getHome
  | getPost
  | postSearch
  | getAbout
  | getContact
  | getAdmin
  | getDashboard
  | getAddPost
  | postAddPost
  | getEditPost
  | putEditPost
  | postAdmin
  | postRegister
  | deletePost
  | getLogout
  deriving DecidableEq, Repr

/-- The routes registered with `authMiddleware` in front of the handler. -/
def Route.gated : Route → Bool
  | .getDashboard | .getAddPost | .postAddPost | .getEditPost | .putEditPost | .deletePost => true
  | _ => false

/-- The handler of a route, without the gate. -/
def Route.handler (env : Env) (req : Req) : Route → M Unit
  | .getHome => Blog.getHome req
  | .getPost => Blog.getPost req
  | .postSearch => Blog.postSearch req
  | .getAbout => Blog.getAbout
  | .getContact => Blog.getContact
  | .getAdmin => Blog.getAdmin
  | .getDashboard => Blog.getDashboard
  | .getAddPost => Blog.getAddPost
  | .postAddPost => Blog.postAddPost env req
  | .getEditPost => Blog.getEditPost req
  | .putEditPost => Blog.putEditPost req
  | .postAdmin => Blog.postAdmin env req
  | .postRegister => Blog.postRegister env req
  | .deletePost => Blog.deletePost req
  | .getLogout => Blog.getLogout

/-- A route as registered: the gate first where the source puts it. -/
def Route.stack (env : Env) (req : Req) (r : Route) : M Unit :=
  if r.gated then authMiddleware env req (r.handler env req) else r.handler env req

/-- The state a new request starts in: same collections, clock and failure script,
nothing called yet, `req.userId` not set. -/
def World.fresh (w : World) : World := { w with trace := [], userId := none }

/-- Serve one request: run the route on a fresh request state and keep the final state. -/
def serve (env : Env) (r : Route) (req : Req) (w : World) : World :=
  (r.stack env req w.fresh).2

/-! ## Vocabulary of the properties -/

/-- The class `[a-zA-Z0-9]` as the specification writes it, with characters. -/
def inClass (c : Char) : Prop :=
  ('a' ≤ c ∧ c ≤ 'z') ∨ ('A' ≤ c ∧ c ≤ 'Z') ∨ ('0' ≤ c ∧ c ≤ '9')

instance : DecidablePred inClass := fun c => by unfold inClass; infer_instance

/-- Two characters are the same letter, case ignored: they are equal, or one is a
capital `A`-`Z` and the other is the small letter 32 code points above it. -/
def sameLetter (c d : Char) : Prop :=
  c = d ∨ ('A' ≤ c ∧ c ≤ 'Z' ∧ d.toNat = c.toNat + 32) ∨
    ('A' ≤ d ∧ d ≤ 'Z' ∧ c.toNat = d.toNat + 32)

instance (c d : Char) : Decidable (sameLetter c d) := by unfold sameLetter; infer_instance

/-- The characters of `term` stand at the start of `text`, one by one, case ignored. -/
def startsIgnoreCase : List Char → List Char → Prop
  | [], _ => True
  | _ :: _, [] => False
  | a :: as, b :: bs => sameLetter a b ∧ startsIgnoreCase as bs

/-- Deciding `startsIgnoreCase` character by character. -/
instance startsIgnoreCaseDecidable :
    (term text : List Char) → Decidable (startsIgnoreCase term text)
  | [], _ => isTrue trivial
  | _ :: _, [] => isFalse (fun h => h)
  | a :: as, b :: bs =>
    match (inferInstance : Decidable (sameLetter a b)), startsIgnoreCaseDecidable as bs with
    | isTrue h1, isTrue h2 => isTrue ⟨h1, h2⟩
    | isFalse h1, _ => isFalse (fun h => h1 h.1)
    | _, isFalse h2 => isFalse (fun h => h2 h.2)

/-- The text `term` occurs in `text` as a substring, letter case ignored: at some
position of `text` the characters of `term` follow one another, each up to case. -/
def containsIgnoreCase (text term : String) : Prop :=
  ∃ n, n ≤ text.toList.length ∧ startsIgnoreCase term.toList (text.toList.drop n)

instance (text term : String) : Decidable (containsIgnoreCase text term) := by
  unfold containsIgnoreCase; infer_instance

/-- A `res.cookie` call. -/
def Event.isCookie : Event → Bool
  | .cookie _ _ _ => true
  | _ => false

/-! ## A concrete instance, for evaluating the handlers on examples -/

/-- A toy instance of the library calls: the hash of `p` is `h:p`, the token of a
user id is the id behind the letter `t`. -/
def demoEnv : Env where
  verify := fun tok =>
    match tok.toList with
    | 't' :: rest => .ok { userId := some (String.mk rest) }
    | _ => .error (.other "invalid token")
  sign := fun id => .ok (String.mk ('t' :: id.toList))
  hash := fun p => .ok ("h:" ++ p)
  compare := fun p h => .ok (h == "h:" ++ p)
  objectId := fun n => "id" ++ toString n

/-- A store with one user (`ann`, password `pw`) and one post. -/
def demoWorld : World :=
  { users := [{ id := "u0", username := "ann", password := "h:pw" }],
    posts := [{ id := "p1", title := "Hello", body := "World body", createdAt := 1,
                updatedAt := 1 }] }

/-- The toy library with a `bcrypt.hash` that throws. -/
def failingHashEnv : Env := { demoEnv with hash := fun _ => .error (.other "bcrypt failed") }

/-- A store with three posts: `world` occurs in the title of the first (capital `W`),
in the body of the third (all capitals) and nowhere in the second. -/
def searchWorld : World :=
  { posts := [{ id := "p1", title := "Hello World", body := "first", createdAt := 1,
                updatedAt := 1 },
              { id := "p2", title := "Other", body := "w o r l d and words", createdAt := 2,
                updatedAt := 2 },
              { id := "p3", title := "Note", body := "the WORLD is round", createdAt := 3,
                updatedAt := 3 }] }

/-- The registration form of a new user `bob`. -/
def bobForm : Req := { username := "bob", password := "secret" }

end Blog

namespace Blog

theorem ceilDiv_perPage (count : Int) : ceilDiv count perPage = (count + 5) / 6 := by
  unfold ceilDiv perPage
  rw [Int.ceil_eq_iff]
  have h6 : ((6 : Int) : ℚ) = 6 := by norm_num
  rw [h6]
  have hdm := Int.emod_add_ediv (count + 5) 6
  have hlt := Int.emod_lt_of_pos (count + 5) (by norm_num : (0 : Int) < 6)
  have hnn := Int.emod_nonneg (count + 5) (by norm_num : (6 : Int) ≠ 0)
  set q := (count + 5) / 6 with hq
  set r := (count + 5) % 6 with hr
  have hc : (count : ℚ) = 6 * (q : ℚ) + (r : ℚ) - 5 := by
    have : ((count + 5 : Int) : ℚ) = ((r + 6 * q : Int) : ℚ) := by rw [hdm]
    push_cast at this
    linarith
  have hr0 : (0 : ℚ) ≤ (r : ℚ) := by exact_mod_cast hnn
  have hr5 : (r : ℚ) ≤ 5 := by
    have : r ≤ 5 := by omega
    exact_mod_cast this
  constructor
  · rw [hc]
    rw [lt_div_iff₀ (by norm_num : (0 : ℚ) < 6)]
    linarith
  · rw [hc]
    rw [div_le_iff₀ (by norm_num : (0 : ℚ) < 6)]
    linarith

theorem hasNextPage_iff (p count : Int) : hasNextPage p count = true ↔ p * 6 < count := by
  unfold hasNextPage nextPage
  rw [ceilDiv_perPage]
  simp only [decide_eq_true_eq]
  omega

/-! ## Running a handler -/

theorem bind_run {α β : Type} (m : M α) (f : α → M β) (w : World) :
    (m >>= f) w = M.bind m f w := rfl

theorem pure_run {α : Type} (a : α) (w : World) : (pure a : M α) w = (.ok a, w) := rfl

theorem tryCatch_run {α : Type} (body : M α) (handler : Err → M α) (w : World) :
    (tryCatch body handler) w = M.tryCatch body handler w := rfl

theorem callNext_eq (next : M Unit) (w : World) :
    callNext next w = (.ok (), (callNext next w).2) := by
  unfold callNext
  split <;> rfl

/-! ## Home listing: pagination -/

theorem skipOffset_eq (p : Int) : skipOffset p = (p - 1) * 6 := by
  unfold skipOffset perPage
  ring

/-- C1. In the home listing, for every page number `p ≥ 1` and every post count
`total` (no assumption on it is needed): `hasNextPage` (computed as `p + 1 ≤ ceil(total / 6)`) is true exactly when
`p * 6 < total`, the value handed to the view as `nextPage` is `p + 1` in that case and
`null` otherwise, and a request whose page is `p`, on a store of `total` posts whose
database calls go through, renders `index` with that value. -/
theorem home_hasNextPage (p total : Int) (hp : 1 ≤ p) :
    (hasNextPage p total = true ↔ p * 6 < total) ∧
    nextPageView p total = (if p * 6 < total then some (p + 1) else none) ∧
    (∀ (env : Env) (req : Req) (w : World),
      page req.page = p → (w.posts.length : Int) = total → w.faults = [] →
      ∃ data,
        (serve env .getHome req w).trace =
          [.db (.postAggregate ((p - 1) * 6) 6), .db .postCountDocuments,
           .render "index"
             [("locals", .locals "NodeJs Blog" description), ("data", .posts data),
              ("current", .num p),
              ("nextPage", if p * 6 < total then .num (p + 1) else .null),
              ("currentRoute", .str "/")]]) := by
  have hview : nextPageView p total = (if p * 6 < total then some (p + 1) else none) := by
    unfold nextPageView
    by_cases h : p * 6 < total
    · simp [h, (hasNextPage_iff p total).mpr h, nextPage]
    · have hfalse : hasNextPage p total = false := by
        cases hb : hasNextPage p total with
        | false => rfl
        | true => exact absurd ((hasNextPage_iff p total).mp hb) h
      simp [h, hfalse]
  refine ⟨hasNextPage_iff p total, hview, ?_⟩
  intro env req w hpage hlen hf
  have hskip : ¬ ((p - 1) * 6 < 0 ∨ perPage ≤ 0) := by
    unfold perPage
    omega
  refine ⟨((w.posts.insertionSort (fun a b => b.createdAt ≤ a.createdAt)).drop
    ((p - 1) * 6).toNat).take perPage.toNat, ?_⟩
  by_cases h : p * 6 < total
  · simp [serve, Route.stack, Route.gated, Route.handler, getHome, hpage, hlen, hf, bind_run,
      tryCatch_run, M.tryCatch, M.bind, Post.aggregateSortSkipLimit, Post.countDocuments,
      dbCall, resCall, headersSent, Event.isResponse, World.fresh, hskip, hview, h,
      skipOffset_eq]
    rfl
  · simp [serve, Route.stack, Route.gated, Route.handler, getHome, hpage, hlen, hf, bind_run,
      tryCatch_run, M.tryCatch, M.bind, Post.aggregateSortSkipLimit, Post.countDocuments,
      dbCall, resCall, headersSent, Event.isResponse, World.fresh, hskip, hview, h,
      skipOffset_eq]
    rfl

/-- Witness for C1: page 2 of 13 posts has a next page, page 3. -/
theorem home_hasNextPage_witness :
    hasNextPage 2 13 = true ∧ nextPageView 2 13 = some 3 :=
  ⟨(home_hasNextPage 2 13 (by decide)).1.mpr (by decide),
   (home_hasNextPage 2 13 (by decide)).2.1.trans (by decide)⟩

theorem page_ne_zero (query : Option String) : page query ≠ 0 := by
  unfold page orOne
  split
  · decide
  · split
    · decide
    · assumption

theorem page_of_nan (query : Option String) (h : parseInt query = none) : page query = 1 := by
  simp [page, orOne, h]

theorem page_absent : page none = 1 := by decide

/-- C10, at the failing input `?page=-3`: the page number the handler uses is `-3`, the
skip offset is `-24`, the aggregation is refused and the handler only logs. -/
theorem home_negative_page :
    page (some "-3") = -3 ∧ skipOffset (page (some "-3")) = -24 ∧
    (serve demoEnv .getHome { page := some "-3" } demoWorld).trace =
      [.db (.postAggregate (-24) 6), .consoleError .invalidStage] := by
  decide

/-! ## The gate -/

/-- C2. `authMiddleware` on a new request: when the `token` cookie is there (truthy)
and verifies, it sets `req.userId` to the `userId` of the decoded payload and calls
`next()` without writing a response; otherwise it answers 401 `Unauthorized.` and does
not call `next()`. `next()` is called exactly when the cookie is there and verifies, and
exactly one of the two outcomes happens. -/
theorem authMiddleware_next_iff_verified (env : Env) (req : Req) (next : M Unit) (w : World) :
    (∀ tok payload, req.token = some tok → tok ≠ "" → env.verify tok = .ok payload →
      authMiddleware env req next w.fresh
          = callNext next { w.fresh with userId := payload.userId } ∧
      (authMiddleware env req (pure ()) w.fresh).2
          = { w.fresh with userId := payload.userId, trace := [.next] }) ∧
    ((¬ ∃ tok payload, req.token = some tok ∧ tok ≠ "" ∧ env.verify tok = .ok payload) →
      authMiddleware env req next w.fresh
        = (.ok (), { w.fresh with trace := [.json 401 unauthorized] })) ∧
    (Event.next ∈ (authMiddleware env req (pure ()) w.fresh).2.trace ↔
      ∃ tok payload, req.token = some tok ∧ tok ≠ "" ∧ env.verify tok = .ok payload) ∧
    ((Event.next ∈ (authMiddleware env req (pure ()) w.fresh).2.trace ∧
        responseCalls (authMiddleware env req (pure ()) w.fresh).2.trace = []) ∨
      (Event.next ∉ (authMiddleware env req (pure ()) w.fresh).2.trace ∧
        (authMiddleware env req (pure ()) w.fresh).2.trace = [.json 401 unauthorized])) := by
  have hacc : ∀ (k : M Unit) tok payload, req.token = some tok → tok ≠ "" →
      env.verify tok = .ok payload →
      authMiddleware env req k w.fresh
        = callNext k { w.fresh with userId := payload.userId } := by
    intro k tok payload h1 h2 h3
    simp [authMiddleware, truthy, h1, h2, h3, bind_run, tryCatch_run, M.tryCatch, M.bind,
      liftExcept, setUserId]
    rw [callNext_eq]
  have hrej : ∀ (k : M Unit),
      (¬ ∃ tok payload, req.token = some tok ∧ tok ≠ "" ∧ env.verify tok = .ok payload) →
      authMiddleware env req k w.fresh
        = (.ok (), { w.fresh with trace := [.json 401 unauthorized] }) := by
    intro k hno
    cases htok : req.token with
    | none => simp [authMiddleware, truthy, htok, resCall, headersSent, World.fresh]
    | some tok =>
      by_cases he : tok = ""
      · simp [authMiddleware, truthy, htok, he, resCall, headersSent, World.fresh]
      · cases hv : env.verify tok with
        | ok payload => exact absurd ⟨tok, payload, htok, he, hv⟩ hno
        | error e =>
          simp [authMiddleware, truthy, htok, he, hv, bind_run, tryCatch_run, M.tryCatch,
            M.bind, liftExcept, resCall, headersSent, World.fresh]
  have hbare : ∀ tok payload, req.token = some tok → tok ≠ "" → env.verify tok = .ok payload →
      (authMiddleware env req (pure ()) w.fresh).2
        = { w.fresh with userId := payload.userId, trace := [.next] } := by
    intro tok payload h1 h2 h3
    rw [hacc (pure ()) tok payload h1 h2 h3]
    simp [callNext, pure_run, World.fresh]
  refine ⟨fun tok payload h1 h2 h3 => ⟨hacc next tok payload h1 h2 h3, hbare tok payload h1 h2 h3⟩,
    hrej next, ?_, ?_⟩
  · constructor
    · intro hmem
      by_contra hno
      rw [hrej (pure ()) hno] at hmem
      simp at hmem
    · rintro ⟨tok, payload, h1, h2, h3⟩
      rw [hbare tok payload h1 h2 h3]
      simp
  · by_cases hyes : ∃ tok payload, req.token = some tok ∧ tok ≠ "" ∧ env.verify tok = .ok payload
    · obtain ⟨tok, payload, h1, h2, h3⟩ := hyes
      left
      rw [hbare tok payload h1 h2 h3]
      simp [responseCalls, Event.isResponse]
    · right
      rw [hrej (pure ()) hyes]
      simp

/-- Witness for C2: with the toy library, the cookie `tu0` verifies to user `u0`. -/
theorem authMiddleware_next_iff_verified_witness :
    (authMiddleware demoEnv { token := some "tu0" } (pure ()) demoWorld.fresh).2
      = { demoWorld.fresh with userId := some "u0", trace := [.next] } :=
  ((authMiddleware_next_iff_verified demoEnv { token := some "tu0" } (pure ()) demoWorld).1
    "tu0" { userId := some "u0" } rfl (by decide) rfl).2

/-- C9. On every gated route, a request without a `token` cookie gets the 401 and
nothing else happens: no call on a model is made and the collections, the creation
counter and the failure script are as before. -/
theorem gated_without_cookie (env : Env) (r : Route) (req : Req) (w : World)
    (hg : r.gated = true) (hreq : req.token = none) :
    (serve env r req w).trace = [.json 401 unauthorized] ∧
    delivered (serve env r req w).trace = [.json 401 unauthorized] ∧
    (serve env r req w).trace.any Event.isDb = false ∧
    (serve env r req w).posts = w.posts ∧
    (serve env r req w).users = w.users ∧
    (serve env r req w).created = w.created ∧
    (serve env r req w).faults = w.faults := by
  simp [serve, Route.stack, hg, authMiddleware, truthy, hreq, resCall, headersSent, World.fresh,
    delivered, Event.isResponse, Event.isDb]

/-- Witness for C9: `DELETE /delete-post/p1` without a cookie leaves the post in place. -/
theorem gated_without_cookie_witness :
    (serve demoEnv .deletePost { id := "p1" } demoWorld).trace = [.json 401 unauthorized] ∧
    (serve demoEnv .deletePost { id := "p1" } demoWorld).posts = demoWorld.posts :=
  ⟨(gated_without_cookie demoEnv .deletePost { id := "p1" } demoWorld rfl rfl).1,
   (gated_without_cookie demoEnv .deletePost { id := "p1" } demoWorld rfl rfl).2.2.2.1⟩

/-! ## Search -/

theorem isAlnum_iff_inClass (c : Char) : isAlnum c = true ↔ inClass c := by
  unfold isAlnum inClass
  simp only [Char.le_def, Bool.or_eq_true, Bool.and_eq_true, decide_eq_true_eq]
  show _ ↔ ((97 ≤ c.toNat ∧ c.toNat ≤ 122) ∨ (65 ≤ c.toNat ∧ c.toNat ≤ 90) ∨
    (48 ≤ c.toNat ∧ c.toNat ≤ 57))
  tauto

theorem toNat_ofNat_small (m : Nat) (h : m < 0xd800) : (Char.ofNat m).toNat = m := by
  unfold Char.ofNat
  rw [dif_pos (Or.inl h)]
  rfl

theorem eq_of_toNat_eq (a b : Char) (h : a.toNat = b.toNat) : a = b := by
  rw [← Char.ofNat_toNat a, ← Char.ofNat_toNat b, h]

theorem toLower_eq_iff (a b : Char) : a.toLower = b.toLower ↔ sameLetter a b := by
  have hA : ∀ c : Char, ('A' ≤ c ∧ c ≤ 'Z') ↔ (65 ≤ c.toNat ∧ c.toNat ≤ 90) := fun c => Iff.rfl
  unfold sameLetter
  rw [← and_assoc, ← and_assoc, hA, hA]
  unfold Char.toLower
  simp only [ge_iff_le]
  by_cases ha : 65 ≤ a.toNat ∧ a.toNat ≤ 90 <;> by_cases hb : 65 ≤ b.toNat ∧ b.toNat ≤ 90
  · rw [if_pos ha, if_pos hb]
    constructor
    · intro h
      have h2 := congrArg Char.toNat h
      rw [toNat_ofNat_small _ (by omega), toNat_ofNat_small _ (by omega)] at h2
      exact Or.inl (eq_of_toNat_eq a b (by omega))
    · rintro (h | h | h)
      · rw [h]
      · omega
      · omega
  · rw [if_pos ha, if_neg hb]
    constructor
    · intro h
      have h2 := congrArg Char.toNat h
      rw [toNat_ofNat_small _ (by omega)] at h2
      exact Or.inr (Or.inl ⟨ha, h2.symm⟩)
    · rintro (h | h | h)
      · rw [h] at ha
        exact absurd ha hb
      · rw [← h.2, Char.ofNat_toNat]
      · exact absurd h.1 hb
  · rw [if_neg ha, if_pos hb]
    constructor
    · intro h
      have h2 := congrArg Char.toNat h
      rw [toNat_ofNat_small _ (by omega)] at h2
      exact Or.inr (Or.inr ⟨hb, h2⟩)
    · rintro (h | h | h)
      · rw [h] at ha
        exact absurd hb ha
      · exact absurd h.1 ha
      · rw [← h.2, Char.ofNat_toNat]
  · rw [if_neg ha, if_neg hb]
    constructor
    · intro h
      exact Or.inl h
    · rintro (h | h | h)
      · exact h
      · exact absurd h.1 ha
      · exact absurd h.1 hb

theorem isPrefixOf_foldCase_iff (term text : List Char) :
    (foldCase term).isPrefixOf (foldCase text) = true ↔ startsIgnoreCase term text := by
  induction term generalizing text with
  | nil => simp [foldCase, startsIgnoreCase]
  | cons a as ih =>
    cases text with
    | nil => simp [foldCase, startsIgnoreCase, List.isPrefixOf]
    | cons b bs =>
      have ih2 := ih bs
      simp only [foldCase] at ih2
      simp [foldCase, startsIgnoreCase, List.isPrefixOf, toLower_eq_iff, ih2]

theorem hasSubstr_foldCase_iff (text term : String) :
    hasSubstr (foldCase text.toList) (foldCase term.toList) = true ↔
      containsIgnoreCase text term := by
  unfold containsIgnoreCase
  generalize text.toList = cs
  induction cs with
  | nil =>
    cases hterm : term.toList with
    | nil => simp [hasSubstr, foldCase, startsIgnoreCase]
    | cons a as => simp [hasSubstr, foldCase, startsIgnoreCase]
  | cons c cs ih =>
    have hfold : foldCase (c :: cs) = c.toLower :: foldCase cs := rfl
    rw [hfold, hasSubstr, ← hfold, Bool.or_eq_true, isPrefixOf_foldCase_iff, ih]
    constructor
    · rintro (h | ⟨n, hn, h⟩)
      · exact ⟨0, Nat.zero_le _, h⟩
      · exact ⟨n + 1, by simpa using hn, h⟩
    · rintro ⟨n, hn, h⟩
      cases n with
      | zero => exact Or.inl h
      | succ m => exact Or.inr ⟨m, by simpa using hn, h⟩

theorem alnum_is_plain (c : Char) (h : isAlnum c = true) : isSyntaxCharacter c = false := by
  unfold isAlnum at h
  unfold isSyntaxCharacter
  simp at h ⊢
  omega

theorem searchNoSpecialChar_isLiteral (term : String) (flag : Bool) :
    RegExp.isLiteral { source := searchNoSpecialChar term, ignoreCase := flag } = true := by
  simp only [RegExp.isLiteral, searchNoSpecialChar, List.all_eq_true]
  intro c hc
  have hc2 : isAlnum c = true := (List.mem_filter.mp hc).2
  simp [alnum_is_plain c hc2]

theorem matchesOr_search (term : String) (p : Post)
    (hlit : RegExp.isLiteral { source := term, ignoreCase := true } = true) :
    matchesOr [(.title, { source := term, ignoreCase := true }),
               (.body, { source := term, ignoreCase := true })] p
      = decide (containsIgnoreCase p.title term ∨ containsIgnoreCase p.body term) := by
  simp only [matchesOr, RegExp.test, hlit, Field.get, List.any_cons,
    List.any_nil, if_true, Bool.or_false]
  rw [Bool.eq_iff_iff]
  simp only [Bool.or_eq_true, beq_iff_eq, Option.some.injEq, decide_eq_true_eq]
  rw [hasSubstr_foldCase_iff, hasSubstr_foldCase_iff]

/-- C5. The search handler: the term used is the input with every character outside
`[a-zA-Z0-9]` removed, in order; it has no pattern syntax character, so the pattern built
from it is a literal; when the database call goes through, the posts handed to the view
are exactly the posts whose title or body contains the term as a substring, letter case
ignored (`containsIgnoreCase`, stated on the characters of the text and not through the
folding the handler path uses), in collection order. The term `"!!!"` is stripped to the empty string, and an
empty term returns every post. -/
theorem search_contract (env : Env) (req : Req) (w : World) (hf : w.faults = []) :
    (searchNoSpecialChar req.searchTerm).toList
        = req.searchTerm.toList.filter (fun c => decide (inClass c)) ∧
    (∀ c ∈ (searchNoSpecialChar req.searchTerm).toList, isSyntaxCharacter c = false) ∧
    RegExp.isLiteral { source := searchNoSpecialChar req.searchTerm, ignoreCase := true } = true ∧
    (serve env .postSearch req w).trace =
      [.db (.postFindOr
          [(.title, { source := searchNoSpecialChar req.searchTerm, ignoreCase := true }),
           (.body, { source := searchNoSpecialChar req.searchTerm, ignoreCase := true })]),
       .render "search"
         [("locals", .locals "Search" description),
          ("data", .posts (w.posts.filter (fun p => decide
            (containsIgnoreCase p.title (searchNoSpecialChar req.searchTerm) ∨
             containsIgnoreCase p.body (searchNoSpecialChar req.searchTerm))))),
          ("currentRoute", .str "/search")]] ∧
    searchNoSpecialChar "!!!" = "" ∧
    (searchNoSpecialChar req.searchTerm = "" →
      w.posts.filter (fun p => decide
        (containsIgnoreCase p.title (searchNoSpecialChar req.searchTerm) ∨
         containsIgnoreCase p.body (searchNoSpecialChar req.searchTerm))) = w.posts) := by
  have hlit := searchNoSpecialChar_isLiteral req.searchTerm true
  refine ⟨?_, ?_, hlit, ?_, by decide, ?_⟩
  · simp only [searchNoSpecialChar]
    apply List.filter_congr
    intro c _
    rw [Bool.eq_iff_iff]
    simp [isAlnum_iff_inClass]
  · intro c hc
    exact alnum_is_plain c (List.mem_filter.mp hc).2
  · have hfilter : w.posts.filter (matchesOr
        [(.title, { source := searchNoSpecialChar req.searchTerm, ignoreCase := true }),
         (.body, { source := searchNoSpecialChar req.searchTerm, ignoreCase := true })])
        = w.posts.filter (fun p => decide
          (containsIgnoreCase p.title (searchNoSpecialChar req.searchTerm) ∨
           containsIgnoreCase p.body (searchNoSpecialChar req.searchTerm))) := by
      apply List.filter_congr
      intro p _
      exact matchesOr_search _ p hlit
    simp [serve, Route.stack, Route.gated, Route.handler, postSearch, hf, bind_run,
      tryCatch_run, M.tryCatch, M.bind, Post.findOr, dbCall, resCall, headersSent,
      Event.isResponse, World.fresh, hlit, hfilter]
  · intro hempty
    rw [hempty]
    apply List.filter_eq_self.mpr
    intro p _
    have hin : containsIgnoreCase p.title "" := ⟨0, Nat.zero_le _, trivial⟩
    simp [hin]

/-- Witness for C5: searching `wor-ld` in the three-post store uses the term `world`
and returns the first and the third post, not the second. -/
theorem search_contract_witness :
    (serve demoEnv .postSearch { searchTerm := "wor-ld" } searchWorld).trace =
      [.db (.postFindOr [(.title, { source := "world", ignoreCase := true }),
                         (.body, { source := "world", ignoreCase := true })]),
       .render "search"
         [("locals", .locals "Search" description),
          ("data", .posts
            [{ id := "p1", title := "Hello World", body := "first", createdAt := 1,
               updatedAt := 1 },
             { id := "p3", title := "Note", body := "the WORLD is round", createdAt := 3,
               updatedAt := 3 }]),
          ("currentRoute", .str "/search")]] :=
  ((search_contract demoEnv { searchTerm := "wor-ld" } searchWorld rfl).2.2.2.1).trans (by decide)

/-! ## Login and registration -/

/-- C3. Login failures look the same: on any store whose database call goes through, a
request naming a username that does not exist and a request naming an existing username
with a password that does not match the stored hash both get status 401 with the body
`Invalid credentials.`, the same delivered response, and neither sets a cookie. -/
theorem login_failures (env : Env) (w : World) (r1 r2 : Req) (u : User)
    (hf : w.faults = [])
    (h1 : w.users.find? (fun x => x.username == r1.username) = none)
    (h2 : w.users.find? (fun x => x.username == r2.username) = some u)
    (hc : env.compare r2.password u.password = .ok false) :
    (serve env .postAdmin r1 w).trace
      = [.db (.userFindOne r1.username), .json 401 invalidCredentials] ∧
    (serve env .postAdmin r2 w).trace
      = [.db (.userFindOne r2.username), .json 401 invalidCredentials] ∧
    delivered (serve env .postAdmin r1 w).trace = [.json 401 invalidCredentials] ∧
    delivered (serve env .postAdmin r2 w).trace = delivered (serve env .postAdmin r1 w).trace ∧
    (serve env .postAdmin r1 w).trace.any Event.isCookie = false ∧
    (serve env .postAdmin r2 w).trace.any Event.isCookie = false := by
  have e1 : (serve env .postAdmin r1 w).trace
      = [.db (.userFindOne r1.username), .json 401 invalidCredentials] := by
    simp [serve, Route.stack, Route.gated, Route.handler, postAdmin, hf, bind_run,
      tryCatch_run, M.tryCatch, M.bind, User.findOne, dbCall, resCall, headersSent,
      Event.isResponse, World.fresh, h1]
  have e2 : (serve env .postAdmin r2 w).trace
      = [.db (.userFindOne r2.username), .json 401 invalidCredentials] := by
    simp [serve, Route.stack, Route.gated, Route.handler, postAdmin, hf, bind_run,
      tryCatch_run, M.tryCatch, M.bind, User.findOne, dbCall, resCall, headersSent,
      Event.isResponse, World.fresh, h2, hc, liftExcept]
  rw [e1, e2]
  simp [delivered, Event.isResponse, Event.isCookie]

/-- Witness for C3: in the demo store `zoe` does not exist and `ann` has another password. -/
theorem login_failures_witness :
    delivered (serve demoEnv .postAdmin { username := "ann", password := "wrong" } demoWorld).trace
      = delivered (serve demoEnv .postAdmin { username := "zoe", password := "pw" } demoWorld).trace :=
  (login_failures demoEnv demoWorld { username := "zoe", password := "pw" }
    { username := "ann", password := "wrong" }
    { id := "u0", username := "ann", password := "h:pw" } rfl (by decide) (by decide)
    rfl).2.2.2.1

/-- C6. Register, login, gate: when the hash compares equal to its password and a signed
token is a non-empty string that verifies to its payload, and no database call fails,
then after a registration answered 201 with user `u`, a login with the same form sets the
`token` cookie and redirects to `/dashboard` (no 401), and any request carrying that
cookie passes `authMiddleware` with `req.userId` set to the id of `u`. -/
theorem register_login_gate (env : Env) (w : World) (req : Req) (u : User)
    (hhash : ∀ p h, env.hash p = .ok h → env.compare p h = .ok true)
    (hsign : ∀ id, ∃ tok, env.sign id = .ok tok ∧ tok ≠ "" ∧
      env.verify tok = .ok { userId := some id })
    (hf : w.faults = [])
    (h201 : delivered (serve env .postRegister req w).trace
      = [.json 201 { message := "User created.", user := some u }]) :
    ∃ tok,
      (serve env .postAdmin req (serve env .postRegister req w)).trace
        = [.db (.userFindOne req.username), .cookie "token" tok true, .redirect "/dashboard"] ∧
      ∀ (req2 : Req) (next : M Unit) (w2 : World), req2.token = some tok →
        authMiddleware env req2 next w2.fresh
          = callNext next { w2.fresh with userId := some u.id } := by
  cases hh : env.hash req.password with
  | error e =>
    simp [serve, Route.stack, Route.gated, Route.handler, postRegister, hf, hh, bind_run,
      tryCatch_run, M.tryCatch, M.bind, liftExcept, consoleError, emit, World.fresh,
      delivered, Event.isResponse] at h201
  | ok h =>
    by_cases hany : ∃ x ∈ w.users, x.username = req.username
    · simp [serve, Route.stack, Route.gated, Route.handler, postRegister, hf, hh, bind_run,
        tryCatch_run, M.tryCatch, M.bind, liftExcept, consoleError, emit, World.fresh,
        delivered, Event.isResponse, User.create, dbCall, hany, resCall, headersSent,
        Err.code] at h201
    · have hreg : serve env .postRegister req w =
          { w with
            users := w.users ++ [{ id := env.objectId w.created, username := req.username,
                                   password := h }],
            created := w.created + 1, userId := none,
            trace := [.db (.userCreate req.username h),
                      .json 201 { message := "User created.",
                                  user := some { id := env.objectId w.created,
                                                 username := req.username, password := h } }] } := by
        simp [serve, Route.stack, Route.gated, Route.handler, postRegister, hf, hh, bind_run,
          tryCatch_run, M.tryCatch, M.bind, liftExcept, World.fresh,
          Event.isResponse, User.create, dbCall, hany, resCall, headersSent]
      have hu : u = { id := env.objectId w.created, username := req.username, password := h } := by
        rw [hreg] at h201
        simp [delivered, Event.isResponse] at h201
        exact h201.symm
      obtain ⟨tok, hs1, hs2, hs3⟩ := hsign (env.objectId w.created)
      have hfind : (w.users ++ [User.mk (env.objectId w.created) req.username h]).find?
            (fun x => x.username == req.username)
          = some (User.mk (env.objectId w.created) req.username h) := by
        have hnone : w.users.find? (fun x => x.username == req.username) = none := by
          rw [List.find?_eq_none]
          intro x hx hxe
          exact hany ⟨x, hx, by simpa using hxe⟩
        simp [List.find?_append, hnone]
      refine ⟨tok, ?_, ?_⟩
      · rw [hreg]
        simp [serve, Route.stack, Route.gated, Route.handler, postAdmin, hf, bind_run,
          tryCatch_run, M.tryCatch, M.bind, liftExcept, World.fresh,
          Event.isResponse, User.findOne, dbCall, resCall, headersSent, hfind,
          hhash req.password h hh, hs1]
      · intro req2 next w2 htok
        rw [hu]
        simp [authMiddleware, truthy, htok, hs2, hs3, bind_run, tryCatch_run, M.tryCatch, M.bind,
          liftExcept, setUserId]
        rw [callNext_eq]

/-- Witness for C6: `bob` registers in the demo store, logs in and gets a cookie. -/
theorem register_login_gate_witness :
    (serve demoEnv .postAdmin bobForm (serve demoEnv .postRegister bobForm demoWorld)).trace.any
      Event.isCookie = true := by
  obtain ⟨tok, htrace, _⟩ := register_login_gate demoEnv demoWorld bobForm
    { id := "id0", username := "bob", password := "h:secret" }
    (by intro p h hh
        simp only [demoEnv, Except.ok.injEq] at hh
        simp [demoEnv, hh])
    (by intro id
        refine ⟨String.mk (Char.ofNat 116 :: id.toList), rfl, ?_, rfl⟩
        intro hempty
        exact absurd (congrArg String.data hempty) (List.cons_ne_nil _ _))
    rfl (by decide)
  rw [htrace]
  rfl

/-- C4, at the failing input: `bob` registers twice. The first request is answered 201;
on the second the handler calls `res.status(409).json(...)` and then goes on to call
`res.status(500).json(...)` on the same response, which throws and is logged. -/
theorem register_twice_calls_500_after_409 :
    (serve demoEnv .postRegister bobForm demoWorld).trace =
      [.db (.userCreate "bob" "h:secret"),
       .json 201 { message := "User created.",
                   user := some { id := "id0", username := "bob", password := "h:secret" } }] ∧
    (serve demoEnv .postRegister bobForm (serve demoEnv .postRegister bobForm demoWorld)).trace =
      [.db (.userCreate "bob" "h:secret"),
       .json 409 { message := "User already in use." },
       .json 500 { message := "Internal Server error." },
       .consoleError .headersSent] ∧
    responseCalls
        (serve demoEnv .postRegister bobForm (serve demoEnv .postRegister bobForm demoWorld)).trace =
      [.json 409 { message := "User already in use." },
       .json 500 { message := "Internal Server error." }] := by
  decide

/-! ## Missing posts and unexpected failures -/

/-- C7, at the failing input: no post has the id `nope`. `GET /post/nope` and
`GET /edit-post/nope` (with a cookie that verifies) read `data.title` on `null`, log the
`TypeError` and make no response call at all, so no 404 is sent. -/
theorem missing_post_no_response :
    (serve demoEnv .getPost { id := "nope" } demoWorld).trace =
      [.db (.postFindById "nope"), .consoleError .typeError] ∧
    responseCalls (serve demoEnv .getPost { id := "nope" } demoWorld).trace = [] ∧
    (serve demoEnv .getEditPost { id := "nope", token := some "tu0" } demoWorld).trace =
      [.next, .db (.postFindById "nope"), .consoleError .typeError] ∧
    responseCalls
      (serve demoEnv .getEditPost { id := "nope", token := some "tu0" } demoWorld).trace = [] := by
  decide

/-- C8, at the failing inputs: when `Post.find()` throws in `GET /dashboard` (with a
cookie that verifies), or `bcrypt.hash` throws in `POST /register`, the handler logs the
error and makes no response call at all, so no 500 is sent. -/
theorem unexpected_error_no_response :
    (serve demoEnv .getDashboard { token := some "tu0" }
        { demoWorld with faults := [some (.other "connection lost")] }).trace =
      [.next, .db .postFind, .consoleError (.other "connection lost")] ∧
    responseCalls (serve demoEnv .getDashboard { token := some "tu0" }
        { demoWorld with faults := [some (.other "connection lost")] }).trace = [] ∧
    (serve failingHashEnv .postRegister bobForm demoWorld).trace =
      [.consoleError (.other "bcrypt failed")] ∧
    responseCalls (serve failingHashEnv .postRegister bobForm demoWorld).trace = [] := by
  decide

end Blog
